import Mathlib

/-!
Verification of the inequality-metrics engine and the data-cleaning pipeline
of the Inequality repository.

The Python code is shallowly embedded over exact rationals: every numeric
value that the source manipulates as a float is modelled as a `Rat`, and
fallible functions (Python `raise`) return `Except String`.  NumPy array
operations are modelled on `List Rat`: boolean-mask filtering is `List.filter`
(order preserving, as in NumPy), `np.sort` is an ascending sort, and
`np.percentile` uses the linear-interpolation-between-closest-ranks
definition (the NumPy default).  The Theil and Atkinson indices use real
logarithms and exponentials, so they are embedded over `Real`.
-/

set_option maxHeartbeats 1600000
set_option maxRecDepth 40000

/-- Ascending sort of a list of rationals; the model of `np.sort`. -/
def sortAsc (v : List ℚ) : List ℚ := v.insertionSort (· ≤ ·)

/-- Python `max(a, b)`: the first argument on ties.  Stated with `if` so that
the kernel can evaluate it on concrete rationals. -/
def pymax (a b : ℚ) : ℚ := if b ≤ a then a else b

/-- Python `min(a, b)`: the first argument on ties. -/
def pymin (a b : ℚ) : ℚ := if a ≤ b then a else b

theorem pymax_eq_max (a b : ℚ) : pymax a b = max a b := by
  unfold pymax
  rcases le_total a b with h | h
  · rcases eq_or_lt_of_le h with rfl | hlt
    · simp
    · rw [if_neg (not_le.mpr hlt), max_eq_right h]
  · rw [if_pos h, max_eq_left h]

theorem pymin_eq_min (a b : ℚ) : pymin a b = min a b := by
  unfold pymin
  rcases le_total a b with h | h
  · rw [if_pos h, min_eq_left h]
  · rcases eq_or_lt_of_le h with rfl | hlt
    · simp
    · rw [if_neg (not_le.mpr hlt), min_eq_right h]

theorem ratFloor_eq (q : ℚ) : Rat.floor q = ⌊q⌋ := by
  rw [Rat.floor_def' q, Rat.floor_def]

theorem neg_ediv_of_not_dvd {n d : ℤ} (hd : 0 < d) (h : ¬ d ∣ n) :
    -n / d = -(n / d) - 1 := by
  have hr0 : 0 ≤ n % d := Int.emod_nonneg n (ne_of_gt hd)
  have hrd : n % d < d := Int.emod_lt_of_pos n hd
  have hrne : n % d ≠ 0 := fun h0 => h (Int.dvd_of_emod_eq_zero h0)
  have hsplit := Int.emod_add_ediv n d
  have key : -n = (d - n % d) + (-(n / d) - 1) * d := by ring_nf; linarith [hsplit]
  rw [key, Int.add_mul_ediv_right _ _ (ne_of_gt hd),
    Int.ediv_eq_zero_of_lt (by omega) (by omega), zero_add]

theorem ratCeil_eq (q : ℚ) : Rat.ceil q = ⌈q⌉ := by
  have hfloor : ⌊(-q : ℚ)⌋ = -q.num / (q.den : ℤ) := by
    rw [Rat.floor_def, Rat.neg_num, Rat.neg_den]
  have hceil : ⌈q⌉ = -(⌊(-q : ℚ)⌋) := by rw [Int.floor_neg, neg_neg]
  rw [hceil, hfloor]
  unfold Rat.ceil
  by_cases hden : q.den = 1
  · rw [if_pos hden, hden]
    simp
  · rw [if_neg hden]
    have hdvd : ¬ ((q.den : ℤ)) ∣ q.num := by
      intro hd
      have h1 : q.den ∣ q.num.natAbs := by
        have := Int.natAbs_dvd_natAbs.mpr hd
        simpa using this
      have h2 : q.den ∣ Nat.gcd q.num.natAbs q.den := Nat.dvd_gcd h1 dvd_rfl
      rw [q.reduced] at h2
      exact hden (Nat.dvd_one.mp h2)
    have hd0 : (0 : ℤ) < (q.den : ℤ) := by exact_mod_cast q.pos
    rw [neg_ediv_of_not_dvd hd0 hdvd]
    ring

/-- Rank-weighted sum `Σ i * x_i` over 1-indexed ranks of a list, the model of
`np.sum(np.arange(1, n + 1) * values)` in `gini_coefficient`. -/
def rankWeightedSum (v : List ℚ) : ℚ :=
  (v.enum.map (fun p => ((p.1 : ℚ) + 1) * p.2)).sum

/-- Embedding of `gini_coefficient` from `src/metrics.py`: empty-input check,
non-positive filtering, no-positive check, ascending sort, the `n = 1` and
all-equal early returns, the (dead) single-non-zero branch, then the
rank-weighted formula clamped to `[0, 1]`. -/
def gini_coefficient (values : List ℚ) : Except String ℚ :=
  if values = [] then .error "Values list cannot be empty"
  else
    let pos := values.filter (fun x => 0 < x)
    if pos = [] then .error "No positive values found"
    else
      let v := sortAsc pos
      let n := v.length
      if n = 1 then .ok 0
      else if v.all (fun x => x == v.headI) then .ok 0
      else
        let non_zero := v.filter (fun x => 0 < x)
        if non_zero.length = 1 ∧ 1 < n then .ok 1
        else
          let numerator := 2 * rankWeightedSum v - ((n : ℚ) + 1) * v.sum
          let denominator := (n : ℚ) * v.sum
          .ok (pymax 0 (pymin 1 (numerator / denominator)))

/-- The same function with the single-non-zero branch removed; used to state
that the branch is dead code (claim C9). -/
def gini_coefficient_debranched (values : List ℚ) : Except String ℚ :=
  if values = [] then .error "Values list cannot be empty"
  else
    let pos := values.filter (fun x => 0 < x)
    if pos = [] then .error "No positive values found"
    else
      let v := sortAsc pos
      let n := v.length
      if n = 1 then .ok 0
      else if v.all (fun x => x == v.headI) then .ok 0
      else
        let numerator := 2 * rankWeightedSum v - ((n : ℚ) + 1) * v.sum
        let denominator := (n : ℚ) * v.sum
        .ok (pymax 0 (pymin 1 (numerator / denominator)))

/-- Linear-interpolation percentile (the NumPy default) of an ascending-sorted
list: with `h = (n - 1) * q / 100`, interpolate between the entries at ranks
`floor h` and `ceil h`.  Every call site in the source passes sorted data. -/
def percentile (v : List ℚ) (q : ℚ) : ℚ :=
  let h := ((v.length : ℚ) - 1) * q / 100
  let vlo := v.getD h.floor.toNat 0
  let vhi := v.getD h.ceil.toNat 0
  vlo + (h - (h.floor : ℚ)) * (vhi - vlo)

/-- Result of the Palma ratio: a finite rational, or the `float` infinity the
source returns when the bottom share is zero and the top share positive. -/
inductive PalmaVal where
  | fin (q : ℚ)
  | inf
deriving DecidableEq, Repr

/-- Embedding of `palma_ratio` from `src/metrics.py`: empty-input check,
non-positive filtering, no-positive check, sort, the `n < 10` minimum-size
check, the 90th/40th percentile thresholds, the two shares, and the
division-by-zero guards. -/
def palma_ratio (values : List ℚ) : Except String PalmaVal :=
  if values = [] then .error "Values list cannot be empty"
  else
    let pos := values.filter (fun x => 0 < x)
    if pos = [] then .error "No positive values found"
    else
      let v := sortAsc pos
      if v.length < 10 then .error "Need at least 10 values to calculate Palma ratio"
      else
        let top_10_threshold := percentile v 90
        let bottom_40_threshold := percentile v 40
        let top_10_share := (v.filter (fun x => top_10_threshold ≤ x)).sum / v.sum
        let bottom_40_share := (v.filter (fun x => x ≤ bottom_40_threshold)).sum / v.sum
        if bottom_40_share = 0 then
          if 0 < top_10_share then .ok .inf else .ok (.fin 0)
        else .ok (.fin (top_10_share / bottom_40_share))

/-- Python-dict assignment `m[k] = x` on an insertion-ordered association
list: overwrite in place when the key exists, append otherwise. -/
def dictInsert (m : List (String × ℚ)) (k : String) (x : ℚ) : List (String × ℚ) :=
  if m.any (fun kv => kv.1 == k) then
    m.map (fun kv => if kv.1 == k then (k, x) else kv)
  else m ++ [(k, x)]

/-- Python-dict read `m[k]`: the value when the key exists, and a `KeyError`
propagated as an `Except.error` otherwise. -/
def lookupKey (m : List (String × ℚ)) (k : String) : Except String ℚ :=
  match m.lookup k with
  | some x => .ok x
  | none => .error ("KeyError: " ++ k)

/-- Embedding of `income_shares` from `src/metrics.py`.  Percentiles are
modelled as integers (the percentile labels `p1`, `p50`, ... are built from
them).  Out-of-range percentiles are skipped by the loop; `p = 100` is the
special exact-1 case; the derived keys are guarded exactly as in the source
(`1 in percentiles and 10 in percentiles`, resp. `50 in percentiles`) and the
dictionary reads of `p99`, `p90`, `p50` can therefore raise a `KeyError`. -/
def income_shares (values : List ℚ) (percentiles : List ℤ) :
    Except String (List (String × ℚ)) :=
  if values = [] then .error "Values list cannot be empty"
  else
    let pos := values.filter (fun x => 0 < x)
    if pos = [] then .error "No positive values found"
    else
      let v := sortAsc pos
      let total_income := v.sum
      if total_income = 0 then .error "Total income cannot be zero"
      else
        let shares := percentiles.foldl (fun acc p =>
          if p < 0 || 100 < p then acc
          else
            let threshold := percentile v (p : ℚ)
            let share :=
              if p == 100 then 1
              else (v.filter (fun x => x ≤ threshold)).sum / total_income
            dictInsert acc ("p" ++ toString p) share) []
        do
          let shares1 ←
            if (1 : ℤ) ∈ percentiles ∧ (10 : ℤ) ∈ percentiles then do
              let s99 ← lookupKey shares "p99"
              let s90 ← lookupKey shares "p90"
              pure (dictInsert (dictInsert shares "top_1_share" (1 - s99))
                "top_10_share" (1 - s90))
            else pure shares
          if (50 : ℤ) ∈ percentiles then do
            let s50 ← lookupKey shares1 "p50"
            pure (dictInsert shares1 "bottom_50_share" s50)
          else pure shares1

/-- The default percentile list of `income_shares`. -/
def defaultPercentiles : List ℤ := [1, 10, 50, 90, 99]

/-- Model of `np.linspace(0, 1, num_points)`: `num_points` evenly spaced
rationals from 0 to 1 inclusive. -/
def linspace01 (num_points : ℕ) : List ℚ :=
  if num_points = 1 then [0]
  else (List.range num_points).map (fun i : ℕ => (i : ℚ) / ((num_points : ℚ) - 1))

/-- Embedding of `lorenz_curve_data` from `src/metrics.py`: population shares
are `linspace01 num_points`; each interior share `p` maps to index
`int(p * n)` clamped to `n - 1`, and reports the cumulative sum up to and
including that index divided by the total. -/
def lorenz_curve_data (values : List ℚ) (num_points : ℕ) :
    Except String (List ℚ × List ℚ) :=
  if values = [] then .error "Values list cannot be empty"
  else
    let pos := values.filter (fun x => 0 < x)
    if pos = [] then .error "No positive values found"
    else
      let v := sortAsc pos
      let n := v.length
      let total_income := v.sum
      if total_income = 0 then .error "Total income cannot be zero"
      else
        let population_shares := linspace01 num_points
        let incomeList := population_shares.map (fun p =>
          if p = 0 then 0
          else if p = 1 then 1
          else
            let index := (p * (n : ℚ)).floor.toNat
            let index := if n ≤ index then n - 1 else index
            (v.take (index + 1)).sum / total_income)
        .ok (population_shares, incomeList)

/-- Embedding of `theil_index` from `src/metrics.py` (no sort is performed in
the source); the entropy term uses the real logarithm. -/
noncomputable def theil_index (values : List ℚ) : Except String ℝ :=
  if values = [] then .error "Values list cannot be empty"
  else
    let pos := values.filter (fun x => 0 < x)
    if pos = [] then .error "No positive values found"
    else
      let n := pos.length
      let mean_income : ℝ := ((pos.sum : ℚ) : ℝ) / (n : ℝ)
      if mean_income = 0 then .ok 0
      else
        let theil :=
          ((pos.map (fun x => (((x : ℚ) : ℝ) / mean_income) *
            Real.log (((x : ℚ) : ℝ) / mean_income))).sum) / (n : ℝ)
        .ok (max 0 theil)

/-- Embedding of `atkinson_index` from `src/metrics.py`: epsilon-domain check,
the special `epsilon = 1` geometric-mean case, the general power-mean case,
clamped to `[0, 1]`. -/
noncomputable def atkinson_index (values : List ℚ) (epsilon : ℚ) :
    Except String ℝ :=
  if values = [] then .error "Values list cannot be empty"
  else if epsilon ≤ 0 then .error "Epsilon must be positive"
  else
    let pos := values.filter (fun x => 0 < x)
    if pos = [] then .error "No positive values found"
    else
      let n := pos.length
      let mean_income : ℝ := ((pos.sum : ℚ) : ℝ) / (n : ℝ)
      let atkinson : ℝ :=
        if epsilon = 1 then
          1 - Real.exp (((pos.map (fun x => Real.log ((x : ℚ) : ℝ))).sum) / (n : ℝ)) / mean_income
        else
          1 - (((pos.map (fun x => ((x : ℚ) : ℝ) ^ ((1 : ℝ) - ((epsilon : ℚ) : ℝ)))).sum / (n : ℝ))
            ^ ((1 : ℝ) / (1 - ((epsilon : ℚ) : ℝ)))) / mean_income
      .ok (max 0 (min 1 atkinson))

/-- Conversion of a Palma result into the extended reals used for the values
of the aggregate metric dictionary. -/
noncomputable def PalmaVal.toEReal : PalmaVal → EReal
  | .fin q => (((q : ℚ) : ℝ) : EReal)
  | .inf => ⊤

/-- Embedding of `calculate_all_metrics` from `src/metrics.py`: each metric is
computed with the shared defaults; if any of them fails the whole aggregate
returns the empty dictionary (the all-or-nothing policy of the source
`try`/`except`), otherwise the insertion-ordered dictionary of every metric,
the income shares, and the two derived ratios is returned. -/
noncomputable def calculate_all_metrics (values : List ℚ) : List (String × EReal) :=
  match gini_coefficient values, palma_ratio values, theil_index values,
      atkinson_index values 1, income_shares values defaultPercentiles with
  | .ok g, .ok p, .ok t, .ok a, .ok s =>
      let base : List (String × EReal) :=
        [("gini", ((g : ℝ) : EReal)), ("palma_ratio", PalmaVal.toEReal p),
         ("theil_index", (t : EReal)), ("atkinson_index", (a : EReal))]
        ++ s.map (fun kv => (kv.1, (((kv.2 : ℚ) : ℝ) : EReal)))
      let withManual :=
        match s.lookup "top_10_share", s.lookup "bottom_50_share" with
        | some t10, some b50 =>
            base ++ [("palma_ratio_manual", (((t10 / b50 : ℚ) : ℝ) : EReal))]
        | _, _ => base
      match s.lookup "top_1_share", s.lookup "bottom_50_share" with
      | some t1, some b50 =>
          withManual ++ [("top_1_vs_bottom_50", (((t1 / b50 : ℚ) : ℝ) : EReal))]
      | _, _ => withManual
  | _, _, _, _, _ => []

deriving instance DecidableEq for Except

/-! Basic facts about the sorting model used by the metric functions. -/

theorem mem_sortAsc {x : ℚ} {l : List ℚ} : x ∈ sortAsc l ↔ x ∈ l :=
  List.mem_insertionSort _

theorem length_sortAsc (l : List ℚ) : (sortAsc l).length = l.length :=
  List.length_insertionSort _ l

theorem sortAsc_pos_filter (values : List ℚ) :
    (sortAsc (values.filter (fun x => 0 < x))).filter (fun x => 0 < x)
      = sortAsc (values.filter (fun x => 0 < x)) := by
  apply List.filter_eq_self.mpr
  intro a ha
  simpa using (List.mem_filter.mp (mem_sortAsc.mp ha)).2

/-- C1: for every sample whose positive values are all identical (and exist),
`gini_coefficient` returns exactly 0; for every sample with at least one
positive value the result lies in `[0, 1]`; and for every sample with more
than one distinct positive value the result is the rank-weighted formula
`(2·Σ(i·x_i) − (n+1)·Σx_i) / (n·Σx_i)` over the ascending-sorted filtered
values, clamped to `[0, 1]`. -/
theorem claim_C1 :
    (∀ (values : List ℚ) (c : ℚ),
        values.filter (fun x => 0 < x) ≠ [] →
        (∀ x ∈ values.filter (fun x => 0 < x), x = c) →
        gini_coefficient values = .ok 0)
  ∧ (∀ values : List ℚ, values.filter (fun x => 0 < x) ≠ [] →
        ∃ g : ℚ, gini_coefficient values = .ok g ∧ 0 ≤ g ∧ g ≤ 1)
  ∧ (∀ (values : List ℚ) (a b : ℚ),
        a ∈ values.filter (fun x => 0 < x) →
        b ∈ values.filter (fun x => 0 < x) → a ≠ b →
        gini_coefficient values =
          .ok (pymax 0 (pymin 1
            ((2 * rankWeightedSum (sortAsc (values.filter (fun x => 0 < x)))
                - (((sortAsc (values.filter (fun x => 0 < x))).length : ℚ) + 1)
                  * (sortAsc (values.filter (fun x => 0 < x))).sum)
              / (((sortAsc (values.filter (fun x => 0 < x))).length : ℚ)
                  * (sortAsc (values.filter (fun x => 0 < x))).sum))))) := by
  refine ⟨?_, ?_, ?_⟩
  · intro values c hpos hall
    have hvals : values ≠ [] := by
      intro h
      exact hpos (by simp [h])
    simp only [gini_coefficient]
    rw [if_neg hvals, if_neg hpos]
    by_cases hn1 : (sortAsc (values.filter (fun x => 0 < x))).length = 1
    · rw [if_pos hn1]
    · rw [if_neg hn1, if_pos ?_]
      apply List.all_eq_true.mpr
      intro x hx
      have hx' : x = c := hall x (mem_sortAsc.mp hx)
      have hhead : (sortAsc (values.filter (fun x => 0 < x))).headI = c := by
        rcases hv : sortAsc (values.filter (fun x => 0 < x)) with _ | ⟨y, ys⟩
        · have hlen := length_sortAsc (values.filter (fun x => 0 < x))
          rw [hv] at hlen
          exact absurd (List.length_eq_zero.mp hlen.symm) hpos
        · have hymem : y ∈ sortAsc (values.filter (fun x => 0 < x)) := by
            rw [hv]
            exact List.mem_cons_self y ys
          have hyc := hall y (mem_sortAsc.mp hymem)
          simp [hv, List.headI, hyc]
      rw [hx', hhead]
      exact beq_self_eq_true c
  · intro values hpos
    have hvals : values ≠ [] := by
      intro h
      exact hpos (by simp [h])
    simp only [gini_coefficient]
    rw [if_neg hvals, if_neg hpos]
    split_ifs with h1 h2 h3
    · exact ⟨0, rfl, le_refl 0, zero_le_one⟩
    · exact ⟨0, rfl, le_refl 0, zero_le_one⟩
    · exact ⟨1, rfl, zero_le_one, le_refl 1⟩
    · refine ⟨_, rfl, ?_, ?_⟩
      · rw [pymax_eq_max]
        exact le_max_left 0 _
      · rw [pymax_eq_max, pymin_eq_min]
        exact max_le zero_le_one (min_le_left 1 _)
  · intro values a b ha hb hab
    have hpos : values.filter (fun x => 0 < x) ≠ [] := List.ne_nil_of_mem ha
    have hvals : values ≠ [] := by
      intro h
      exact hpos (by simp [h])
    have hav : a ∈ sortAsc (values.filter (fun x => 0 < x)) := mem_sortAsc.mpr ha
    have hbv : b ∈ sortAsc (values.filter (fun x => 0 < x)) := mem_sortAsc.mpr hb
    have hn1 : (sortAsc (values.filter (fun x => 0 < x))).length ≠ 1 := by
      intro h1
      rcases List.length_eq_one.mp h1 with ⟨x, hx⟩
      rw [hx] at hav hbv
      simp at hav hbv
      exact hab (hav.trans hbv.symm)
    have hall : ¬ ((sortAsc (values.filter (fun x => 0 < x))).all
        (fun x => x == (sortAsc (values.filter (fun x => 0 < x))).headI) = true) := by
      intro hl
      have h1 := List.all_eq_true.mp hl a hav
      have h2 := List.all_eq_true.mp hl b hbv
      exact hab ((eq_of_beq h1).trans (eq_of_beq h2).symm)
    have hdead : ¬ (((sortAsc (values.filter (fun x => 0 < x))).filter
        (fun x => 0 < x)).length = 1 ∧ 1 < (sortAsc (values.filter (fun x => 0 < x))).length) := by
      rw [sortAsc_pos_filter]
      rintro ⟨hl, hg⟩
      omega
    simp only [gini_coefficient]
    rw [if_neg hvals, if_neg hpos, if_neg hn1, if_neg hall, if_neg hdead]

/-- Witness for C1 at concrete inputs: a constant sample, a singleton sample,
and the five-point sample from the testable properties of the spec, whose
clamped rank-weighted value is `4/15 ≈ 0.267`. -/
theorem claim_C1_witness :
    gini_coefficient [5, 5, 5] = .ok 0
  ∧ (∃ g : ℚ, gini_coefficient [3] = .ok g ∧ 0 ≤ g ∧ g ≤ 1)
  ∧ gini_coefficient [10, 20, 30, 40, 50] = .ok (4/15) := by
  refine ⟨claim_C1.1 [5, 5, 5] 5 (by with_unfolding_all decide)
      (by with_unfolding_all decide),
    claim_C1.2.1 [3] (by with_unfolding_all decide), ?_⟩
  have h := claim_C1.2.2 [10, 20, 30, 40, 50] 10 20 (by with_unfolding_all decide)
    (by with_unfolding_all decide) (by with_unfolding_all decide)
  rw [h]
  with_unfolding_all decide

/-- C9: the branch of `gini_coefficient` that returns 1 when exactly one value
is non-zero among `n > 1` is dead code.  First conjunct: after the
non-positive pre-filter the second positivity filter is the identity, so the
count of non-zero remaining values always equals `n`.  Second conjunct: the
function computes the same answer as the variant with the branch deleted, on
every input. -/
theorem claim_C9 (values : List ℚ) :
    ((sortAsc (values.filter (fun x => 0 < x))).filter (fun x => 0 < x)).length
      = (sortAsc (values.filter (fun x => 0 < x))).length
  ∧ gini_coefficient values = gini_coefficient_debranched values := by
  constructor
  · rw [sortAsc_pos_filter]
  · simp only [gini_coefficient, gini_coefficient_debranched]
    split_ifs with h1 h2 h3 h4 h5
    · rfl
    · rfl
    · rfl
    · rfl
    · rw [sortAsc_pos_filter] at h5
      omega
    · rfl

/-- C5 counterexample: a sample whose positive filter leaves zero elements
has fewer than 10 remaining elements, yet `palma_ratio` raises the
no-positive-values error, not the insufficient-data error the claim
requires for every sample with fewer than 10 remaining elements. -/
theorem claim_C5_counterexample :
    (([-1] : List ℚ).filter (fun x => 0 < x)).length < 10
  ∧ palma_ratio [-1] = .error "No positive values found"
  ∧ palma_ratio [-1] ≠ .error "Need at least 10 values to calculate Palma ratio" := by
  with_unfolding_all decide

/-- C5 amended: with at least one but fewer than 10 elements remaining after
the non-positive filter, `palma_ratio` raises the insufficient-data error;
with zero remaining it raises the no-positive-values error instead; and with
`n ≥ 10` it returns the top-10/bottom-40 share quotient built from the 90th
and 40th linear-interpolation percentile thresholds, with the zero-share
guards of the source. -/
theorem claim_C5_amended :
    (∀ values : List ℚ, values ≠ [] →
        values.filter (fun x => 0 < x) ≠ [] →
        (values.filter (fun x => 0 < x)).length < 10 →
        palma_ratio values = .error "Need at least 10 values to calculate Palma ratio")
  ∧ (∀ values : List ℚ, values ≠ [] →
        values.filter (fun x => 0 < x) = [] →
        palma_ratio values = .error "No positive values found")
  ∧ (∀ values : List ℚ, 10 ≤ (values.filter (fun x => 0 < x)).length →
        palma_ratio values =
          .ok (if ((sortAsc (values.filter (fun x => 0 < x))).filter
                  (fun x => x ≤ percentile (sortAsc (values.filter (fun x => 0 < x))) 40)).sum
                / (sortAsc (values.filter (fun x => 0 < x))).sum = 0 then
                if 0 < ((sortAsc (values.filter (fun x => 0 < x))).filter
                    (fun x => percentile (sortAsc (values.filter (fun x => 0 < x))) 90 ≤ x)).sum
                  / (sortAsc (values.filter (fun x => 0 < x))).sum then .inf else .fin 0
              else .fin
                ((((sortAsc (values.filter (fun x => 0 < x))).filter
                    (fun x => percentile (sortAsc (values.filter (fun x => 0 < x))) 90 ≤ x)).sum
                  / (sortAsc (values.filter (fun x => 0 < x))).sum)
                / (((sortAsc (values.filter (fun x => 0 < x))).filter
                    (fun x => x ≤ percentile (sortAsc (values.filter (fun x => 0 < x))) 40)).sum
                  / (sortAsc (values.filter (fun x => 0 < x))).sum)))) := by
  refine ⟨?_, ?_, ?_⟩
  · intro values hvals hpos hlen
    simp only [ palma_ratio]
    rw [if_neg hvals, if_neg hpos, if_pos (by rw [length_sortAsc]; exact hlen)]
  · intro values hvals hpos
    simp only [ palma_ratio]
    rw [if_neg hvals, if_pos hpos]
  · intro values hlen
    have hpos : values.filter (fun x => 0 < x) ≠ [] := by
      intro h
      rw [h] at hlen
      simp at hlen
    have hvals : values ≠ [] := by
      intro h
      exact hpos (by simp [h])
    simp only [ palma_ratio]
    rw [if_neg hvals, if_neg hpos, if_neg (by rw [length_sortAsc]; omega)]
    split_ifs <;> rfl

/-- Witness for C5 amended: nine positive values trip the minimum-size error,
one negative value trips the no-positive-values error, and ten distinct
positive values produce the finite share quotient, here exactly 1. -/
theorem claim_C5_witness :
    palma_ratio [1, 2, 3, 4, 5, 6, 7, 8, 9]
      = .error "Need at least 10 values to calculate Palma ratio"
  ∧ palma_ratio [-1] = .error "No positive values found"
  ∧ palma_ratio [1, 2, 3, 4, 5, 6, 7, 8, 9, 10] = .ok (.fin 1) := by
  refine ⟨claim_C5_amended.1 [1, 2, 3, 4, 5, 6, 7, 8, 9] (by with_unfolding_all decide)
      (by with_unfolding_all decide) (by with_unfolding_all decide),
    claim_C5_amended.2.1 [-1] (by with_unfolding_all decide) (by with_unfolding_all decide), ?_⟩
  have h := claim_C5_amended.2.2 [1, 2, 3, 4, 5, 6, 7, 8, 9, 10] (by with_unfolding_all decide)
  rw [h]
  with_unfolding_all decide

/-! Facts needed for the Lorenz-curve claim. -/

theorem sorted_sortAsc (l : List ℚ) : List.Sorted (· ≤ ·) (sortAsc l) :=
  List.sorted_insertionSort _ l

/-- Mean of a sorted prefix is at most the mean of the whole list: for a
sorted list, `n * Σ(take k) ≤ |take k| * Σ`. -/
theorem sorted_take_sum_le (v : List ℚ) (hv : List.Sorted (· ≤ ·) v) (k : ℕ) :
    (v.length : ℚ) * (v.take k).sum ≤ ((v.take k).length : ℚ) * v.sum := by
  rcases hD : v.drop k with _ | ⟨m, rest⟩
  · have htake : v.take k = v := by
      have hsplit := List.take_append_drop k v
      rw [hD, List.append_nil] at hsplit
      rw [hsplit]
    rw [htake]
  · have hsplit := List.take_append_drop k v
    have hsum : v.sum = (v.take k).sum + (v.drop k).sum := by
      conv_lhs => rw [← hsplit]
      rw [List.sum_append]
    have hlen : v.length = (v.take k).length + (v.drop k).length := by
      conv_lhs => rw [← hsplit]
      rw [List.length_append]
    have hsorted : List.Sorted (· ≤ ·) (v.take k ++ v.drop k) := by
      rw [hsplit]
      exact hv
    rw [List.Sorted, List.pairwise_append] at hsorted
    obtain ⟨hsT, hsD, hTD⟩ := hsorted
    have hmD : m ∈ v.drop k := by
      rw [hD]
      exact List.mem_cons_self m rest
    have hTle : ∀ x ∈ v.take k, x ≤ m := fun x hx => hTD x hx m hmD
    have hDge : ∀ y ∈ v.drop k, m ≤ y := by
      intro y hy
      rw [hD] at hy hsD
      rcases List.mem_cons.mp hy with rfl | hy2
      · exact le_refl y
      · exact List.rel_of_sorted_cons hsD y hy2
    have h1 : (v.take k).sum ≤ ((v.take k).length : ℚ) * m := by
      have := List.sum_le_card_nsmul (v.take k) m hTle
      rwa [nsmul_eq_mul] at this
    have h2 : ((v.drop k).length : ℚ) * m ≤ (v.drop k).sum := by
      have := List.card_nsmul_le_sum (v.drop k) m hDge
      rwa [nsmul_eq_mul] at this
    have ha : (0 : ℚ) ≤ ((v.take k).length : ℚ) := by positivity
    have hb : (0 : ℚ) ≤ ((v.drop k).length : ℚ) := by positivity
    rw [hsum, hlen]
    push_cast
    nlinarith [mul_le_mul_of_nonneg_left h1 hb, mul_le_mul_of_nonneg_left h2 ha]

/-- C4 counterexample: on the two-point sample `[1, 2]` (which has
inequality), the interior Lorenz point at index 1 has population share `1/99`
but income share `1/3`, so the claimed pointwise bound
`income_share ≤ population_share` fails. -/
theorem claim_C4_counterexample :
    (lorenz_curve_data [1, 2] 100).toOption.map
      (fun pr => (pr.1.getD 1 0, pr.2.getD 1 0)) = some (1/99, 1/3)
  ∧ ¬ ((1 : ℚ)/3 ≤ 1/99) := by
  with_unfolding_all decide

/-- Entry `i` of `linspace01 k` for `k ≠ 1` is `i / (k - 1)`. -/
theorem linspace01_getElem (k i : ℕ) (hk : ¬ k = 1) (hi : i < k) :
    (linspace01 k)[i]? = some ((i : ℚ) / ((k : ℚ) - 1)) := by
  simp only [linspace01]
  rw [if_neg hk]
  rw [List.getElem?_map (fun i : ℕ => (i : ℚ) / ((k : ℚ) - 1)) (List.range k) i]
  rw [List.getElem?_range hi]
  rfl

theorem getElem?_map_of_eq {α β : Type} (f : α → β) (l : List α) (i : ℕ) {a : α}
    (h : l[i]? = some a) : (l.map f)[i]? = some (f a) := by
  rw [List.getElem?_map, h, Option.map_some']

/-- C4 amended: for every valid sample, `lorenz_curve_data` with the default
100 points returns population and income shares whose entries at position 0
are both exactly 0 and at position 99 (the last of the 100 points) both
exactly 1; every interior point `p` maps to index `floor(p·n)` clamped to
`n − 1` into the ascending-sorted filtered sample, reporting the cumulative
sum through that index over the total; and every interior income share is at
most `(k + 1)/n` for that clamped index `k` — the population fraction the
prefix actually covers — though not necessarily at most `p` itself. -/
theorem claim_C4_amended :
    ∀ (values : List ℚ) (pop inc : List ℚ),
      lorenz_curve_data values 100 = .ok (pop, inc) →
      (pop[0]? = some 0 ∧ inc[0]? = some 0 ∧ pop[99]? = some 1 ∧ inc[99]? = some 1)
      ∧ (∀ (i : ℕ) (p : ℚ), pop[i]? = some p → 0 < p → p < 1 →
          inc[i]? = some
            (((sortAsc (values.filter (fun x => 0 < x))).take
                (min (⌊p * ((sortAsc (values.filter (fun x => 0 < x))).length : ℚ)⌋.toNat)
                  ((sortAsc (values.filter (fun x => 0 < x))).length - 1) + 1)).sum
              / (sortAsc (values.filter (fun x => 0 < x))).sum))
      ∧ (∀ (i : ℕ) (p q : ℚ), pop[i]? = some p → 0 < p → p < 1 → inc[i]? = some q →
          q ≤ ((min (⌊p * ((sortAsc (values.filter (fun x => 0 < x))).length : ℚ)⌋.toNat)
                  ((sortAsc (values.filter (fun x => 0 < x))).length - 1) + 1 : ℕ) : ℚ)
              / ((sortAsc (values.filter (fun x => 0 < x))).length : ℚ)) := by
  intro values pop inc h
  simp only [lorenz_curve_data] at h
  split_ifs at h with h1 h2 h3
  rw [Except.ok.injEq, Prod.mk.injEq] at h
  obtain ⟨hpop, hinc⟩ := h
  subst hpop
  subst hinc
  have hpop0 : (linspace01 100)[0]? = some 0 := by
    rw [linspace01_getElem 100 0 (by norm_num) (by norm_num)]
    norm_num
  have hpop99 : (linspace01 100)[99]? = some 1 := by
    rw [linspace01_getElem 100 99 (by norm_num) (by norm_num)]
    norm_num
  have hformula : ∀ (i : ℕ) (p : ℚ), (linspace01 100)[i]? = some p → 0 < p → p < 1 →
      ((linspace01 100).map (fun p =>
        if p = 0 then 0
        else if p = 1 then 1
        else
          ((sortAsc (values.filter (fun x => 0 < x))).take
            ((if (sortAsc (values.filter (fun x => 0 < x))).length ≤
                  (p * ((sortAsc (values.filter (fun x => 0 < x))).length : ℚ)).floor.toNat then
                (sortAsc (values.filter (fun x => 0 < x))).length - 1
              else (p * ((sortAsc (values.filter (fun x => 0 < x))).length : ℚ)).floor.toNat) + 1)).sum
            / (sortAsc (values.filter (fun x => 0 < x))).sum))[i]? = some
        (((sortAsc (values.filter (fun x => 0 < x))).take
            (min (⌊p * ((sortAsc (values.filter (fun x => 0 < x))).length : ℚ)⌋.toNat)
              ((sortAsc (values.filter (fun x => 0 < x))).length - 1) + 1)).sum
          / (sortAsc (values.filter (fun x => 0 < x))).sum) := by
    intro i p hp hp0 hp1
    rw [getElem?_map_of_eq _ _ _ hp]
    have hclamp : (if (sortAsc (values.filter (fun x => 0 < x))).length ≤
          (p * ((sortAsc (values.filter (fun x => 0 < x))).length : ℚ)).floor.toNat then
        (sortAsc (values.filter (fun x => 0 < x))).length - 1
      else (p * ((sortAsc (values.filter (fun x => 0 < x))).length : ℚ)).floor.toNat)
        = min ((p * ((sortAsc (values.filter (fun x => 0 < x))).length : ℚ)).floor.toNat)
            ((sortAsc (values.filter (fun x => 0 < x))).length - 1) := by
      split_ifs with hc <;> omega
    rw [if_neg hp0.ne', if_neg hp1.ne, hclamp, ratFloor_eq]
  refine ⟨⟨hpop0, ?_, hpop99, ?_⟩, hformula, ?_⟩
  · rw [getElem?_map_of_eq _ _ _ hpop0, if_pos rfl]
  · rw [getElem?_map_of_eq _ _ _ hpop99, if_neg (by norm_num), if_pos rfl]
  · intro i p q hp hp0 hp1 hq
    rw [hformula i p hp hp0 hp1, Option.some.injEq] at hq
    subst hq
    set v := sortAsc (values.filter (fun x => 0 < x)) with hv
    set K := min (⌊p * (v.length : ℚ)⌋.toNat) (v.length - 1) + 1 with hK
    have hvpos : ∀ x ∈ v, 0 < x := by
      intro x hx
      rw [hv] at hx
      have := (List.mem_filter.mp (mem_sortAsc.mp hx)).2
      simpa using this
    have hvne : v ≠ [] := by
      rw [hv]
      intro hnil
      have hlen := length_sortAsc (values.filter (fun x => 0 < x))
      rw [hnil] at hlen
      exact h2 (List.length_eq_zero.mp hlen.symm)
    have hn1 : 0 < v.length := List.length_pos.mpr hvne
    have htotal : 0 < v.sum := List.sum_pos v hvpos hvne
    have hKn : K ≤ v.length := by omega
    have htklen : (v.take K).length = K := by
      rw [List.length_take]
      omega
    have hkey := sorted_take_sum_le v (hv ▸ sorted_sortAsc (values.filter (fun x => 0 < x))) K
    rw [htklen] at hkey
    rw [div_le_div_iff htotal (by exact_mod_cast hn1)]
    calc (v.take K).sum * (v.length : ℚ) = (v.length : ℚ) * (v.take K).sum := by ring
      _ ≤ (K : ℚ) * v.sum := hkey

/-- Witness for C4 amended at the sample `[1, 2]`: the endpoints are exactly
0 and 1, and at interior index 1 the income share `1/3` is bounded by the
realized population fraction `1/2` of the one-element prefix. -/
theorem claim_C4_witness :
    (lorenz_curve_data [1, 2] 100).toOption.map
      (fun pr => (pr.1[0]?, pr.2[0]?, pr.1[99]?, pr.2[99]?))
      = some (some 0, some 0, some 1, some 1)
  ∧ ((1 : ℚ)/3 ≤ 1/2) := by
  rcases hE : lorenz_curve_data [1, 2] 100 with e | ⟨pop, inc⟩
  · have hso : (lorenz_curve_data [1, 2] 100).toOption.isSome = true := by
      with_unfolding_all decide
    rw [hE] at hso
    simp [Except.toOption] at hso
  · obtain ⟨⟨h0, h1, h2, h3⟩, _, hbound⟩ := claim_C4_amended [1, 2] pop inc hE
    constructor
    · simp only [Except.toOption, Option.map_some']
      rw [h0, h1, h2, h3]
    · have hp1 : pop[1]? = some (1/99) := by
        have hcomp : (lorenz_curve_data [1, 2] 100).toOption.map (fun pr => pr.1[1]?)
            = some (some (1/99)) := by
          with_unfolding_all decide
        rw [hE] at hcomp
        simpa [Except.toOption] using hcomp
      have hq1 : inc[1]? = some (1/3) := by
        have hcomp : (lorenz_curve_data [1, 2] 100).toOption.map (fun pr => pr.2[1]?)
            = some (some (1/3)) := by
          with_unfolding_all decide
        rw [hE] at hcomp
        simpa [Except.toOption] using hcomp
      have hb := hbound 1 (1/99) (1/3) hp1 (by norm_num) (by norm_num) hq1
      have hcast : ((min (⌊(1/99 : ℚ)
            * ((sortAsc (([1, 2] : List ℚ).filter (fun x => 0 < x))).length : ℚ)⌋.toNat)
            ((sortAsc (([1, 2] : List ℚ).filter (fun x => 0 < x))).length - 1) + 1 : ℕ) : ℚ)
          / ((sortAsc (([1, 2] : List ℚ).filter (fun x => 0 < x))).length : ℚ) = 1/2 := by
        with_unfolding_all decide
      rw [hcast] at hb
      exact hb

/-- The value-weighted share below percentile `p` as computed by the loop of
`income_shares`: the sum of all sorted filtered elements at most the
linear-interpolation percentile threshold, divided by the total. -/
def shareAt (values : List ℚ) (p : ℤ) : ℚ :=
  ((sortAsc (values.filter (fun x => 0 < x))).filter
    (fun x => x ≤ percentile (sortAsc (values.filter (fun x => 0 < x))) (p : ℚ))).sum
  / (sortAsc (values.filter (fun x => 0 < x))).sum

/-- On the default percentile list, a successful `income_shares` call returns
exactly the five percentile keys followed by the three derived keys, with the
derived values computed from the `p99`, `p90` and `p50` shares. -/
theorem income_shares_default_shape (values : List ℚ) (h1 : values ≠ [])
    (h2 : values.filter (fun x => 0 < x) ≠ [])
    (h3 : ¬ (sortAsc (values.filter (fun x => 0 < x))).sum = 0) :
    income_shares values defaultPercentiles = .ok
      [("p1", shareAt values 1), ("p10", shareAt values 10), ("p50", shareAt values 50),
       ("p90", shareAt values 90), ("p99", shareAt values 99),
       ("top_1_share", 1 - shareAt values 99), ("top_10_share", 1 - shareAt values 90),
       ("bottom_50_share", shareAt values 50)] := by
  simp only [income_shares, defaultPercentiles]
  rw [if_neg h1, if_neg h2, if_neg h3]
  rfl

/-- C3: evaluating `income_shares` on 100 copies of 100 (perfect equality).
Because every value is at most the percentile threshold 100, each percentile
share evaluates to 1, so `p50 = 1`, `top_10_share = 0` and
`bottom_50_share = 1` — not the `0.5 / 0.1 / 0.5` the claim (and the
repository test `test_perfect_equality`) requires. -/
theorem claim_C3_failing_eval :
    income_shares (List.replicate 100 (100 : ℚ)) defaultPercentiles =
      .ok [("p1", 1), ("p10", 1), ("p50", 1), ("p90", 1), ("p99", 1),
           ("top_1_share", 0), ("top_10_share", 0), ("bottom_50_share", 1)] := by
  with_unfolding_all decide

/-- C6: evaluating `income_shares` with `percentiles = [1, 10]` on a valid
sample.  The derived-keys guard of the source checks `1 in percentiles and
10 in percentiles` and then reads `shares['p99']`, which was never computed,
so the call raises a `KeyError` instead of returning the plain percentile
map the claim requires. -/
theorem claim_C6_failing_eval :
    income_shares [1, 2, 3] [1, 10] = .error "KeyError: p99" := by
  with_unfolding_all decide

/-- The insertion-ordered key list of a fully successful
`calculate_all_metrics` call. -/
def allMetricKeys : List String :=
  ["gini", "palma_ratio", "theil_index", "atkinson_index",
   "p1", "p10", "p50", "p90", "p99", "top_1_share", "top_10_share", "bottom_50_share",
   "palma_ratio_manual", "top_1_vs_bottom_50"]

/-- C2: the aggregate `calculate_all_metrics` is total and all-or-nothing —
every call returns either the empty dictionary or a dictionary carrying every
metric key (the four scalar metrics, the five percentile shares, the three
derived share keys, and the two derived ratios); and on the 5-element sample
`[1,2,3,4,5]` — where the Palma ratio fails its minimum-size requirement —
the whole aggregate is empty even though `gini_coefficient` alone succeeds. -/
theorem claim_C2 :
    (∀ values : List ℚ,
        calculate_all_metrics values = []
      ∨ (calculate_all_metrics values).map Prod.fst = allMetricKeys)
  ∧ calculate_all_metrics [1, 2, 3, 4, 5] = []
  ∧ gini_coefficient [1, 2, 3, 4, 5] = .ok (4/15) := by
  refine ⟨?_, ?_, by with_unfolding_all decide⟩
  · intro values
    rcases hg : gini_coefficient values with e1 | g
    · left
      simp [calculate_all_metrics, hg]
    rcases hp : palma_ratio values with e2 | p
    · left
      simp [calculate_all_metrics, hg, hp]
    rcases ht : theil_index values with e3 | t
    · left
      simp [calculate_all_metrics, hg, hp, ht]
    rcases ha : atkinson_index values 1 with e4 | a
    · left
      simp [calculate_all_metrics, hg, hp, ht, ha]
    rcases hs : income_shares values defaultPercentiles with e5 | s
    · left
      simp [calculate_all_metrics, hg, hp, ht, ha, hs]
    · right
      have h1 : values ≠ [] := by
        intro h
        rw [h] at hg
        simp [gini_coefficient] at hg
      have h2 : values.filter (fun x => 0 < x) ≠ [] := by
        intro hx
        simp only [gini_coefficient] at hg
        rw [if_neg h1, if_pos hx] at hg
        simp at hg
      have h3 : ¬ (sortAsc (values.filter (fun x => 0 < x))).sum = 0 := by
        intro hx
        simp only [income_shares, defaultPercentiles] at hs
        rw [if_neg h1, if_neg h2, if_pos hx] at hs
        simp at hs
      have hshape := income_shares_default_shape values h1 h2 h3
      rw [hs, Except.ok.injEq] at hshape
      subst hshape
      simp [calculate_all_metrics, hg, hp, ht, ha, hs, List.lookup, allMetricKeys]
  · have hg5 : gini_coefficient [1, 2, 3, 4, 5] = .ok (4/15) := by
      with_unfolding_all decide
    have hp5 : palma_ratio [1, 2, 3, 4, 5]
        = .error "Need at least 10 values to calculate Palma ratio" := by
      with_unfolding_all decide
    simp [calculate_all_metrics, hg5, hp5]

/-!
Embedding of the cleaning pipeline (`utils/data_models.py` and
`src/data_cleaning.py`).  A pandas DataFrame is modelled as a list of column
names plus a list of rows over the canonical schema; every cell is
`Option`-valued, `none` standing for a missing value (NaN).  Cells of columns
outside the canonical schema are not carried — the claims under verification
only concern canonical columns.  Column-presence checks consult the `cols`
list, matching the pandas `in df.columns` tests of the source.
-/

/-- One raw World Bank API observation: the `date` and `value` fields of a
response entry (absent models null/missing).  Non-dict entries, which the
source also skips, are not representable here. -/
structure ApiEntry where
  date : Option ℚ
  value : Option ℚ
deriving DecidableEq, Repr

/-- A row over the canonical column schema of the cleaning pipeline. -/
structure Row where
  year : Option ℚ
  value : Option ℚ
  country_code : Option String
  country_name : Option String
  source : Option String
  gini : Option ℚ
  top_10_share : Option ℚ
  bottom_50_share : Option ℚ
  top_1_share : Option ℚ
  palma_ratio : Option ℚ
deriving DecidableEq, Repr

/-- The all-missing row. -/
def emptyRow : Row := ⟨none, none, none, none, none, none, none, none, none, none⟩

/-- Model of a pandas DataFrame: column names plus rows. -/
structure DataFrame where
  cols : List String
  rows : List Row
deriving DecidableEq, Repr

/-- Python `int()` truncation toward zero of a float. -/
def intTrunc (q : ℚ) : ℤ := if 0 ≤ q then q.floor else q.ceil

/-- Embedding of `validate_year` from `utils/data_models.py`: missing is
invalid; otherwise `int(year)` must lie in `[1960, 2030]`. -/
def validate_year (year : Option ℚ) : Bool :=
  match year with
  | none => false
  | some q => decide (1960 ≤ intTrunc q ∧ intTrunc q ≤ 2030)

/-- Embedding of `validate_gini_value` from `utils/data_models.py`: missing is
invalid; otherwise the value must lie in `[0, 100]` or in `[0, 1]`. -/
def validate_gini_value (value : Option ℚ) : Bool :=
  match value with
  | none => false
  | some q => decide ((0 ≤ q ∧ q ≤ 100) ∨ (0 ≤ q ∧ q ≤ 1))

/-- Year-ascending comparison on rows, missing years last (as pandas
`sort_values` places NaN last). -/
def yearLe (a b : Row) : Bool :=
  match a.year, b.year with
  | some x, some y => decide (x ≤ y)
  | some _, none => true
  | none, some _ => false
  | none, none => true

/-- Stable sort of rows by ascending year; the model of
`df.sort_values('year')`. -/
def sortRowsByYear (rows : List Row) : List Row :=
  rows.insertionSort (fun a b => yearLe a b = true)

/-- Embedding of `convert_api_response_to_dataframe` from
`utils/data_models.py`: entries with missing date or value are skipped;
surviving entries must pass `validate_year` and `validate_gini_value`; values
at most 1 are scaled by 100; the result carries the upper-cased country code
and is sorted by year when non-empty.  `convertEntry` is the per-entry body
of the loop. -/
def convertEntry (country_code : String) (entry : ApiEntry) : Option Row :=
  match entry.date, entry.value with
  | some d, some v =>
      if validate_year (some d) && validate_gini_value (some v) then
        some { emptyRow with
               year := some ((intTrunc d : ℤ) : ℚ),
               value := some (if v ≤ 1 then v * 100 else v),
               country_code := some country_code.toUpper }
      else none
  | _, _ => none

def convert_api_response_to_dataframe (api_response : List ApiEntry)
    (country_code : String) : DataFrame :=
  if api_response = [] then ⟨["year", "value", "country_code"], []⟩
  else
    let processed := api_response.filterMap (convertEntry country_code)
    if processed = [] then ⟨["year", "value", "country_code"], processed⟩
    else ⟨["year", "value", "country_code"], sortRowsByYear processed⟩

/-- The percentage normalization of the cleaning pipeline: values at most 1
are assumed fractional and scaled to the 0-100 scale. -/
def normalize100 (x : ℚ) : ℚ := if x ≤ 1 then x * 100 else x

/-- Round-half-to-even to an integer (the NumPy and pandas rounding mode). -/
def roundHalfEven (x : ℚ) : ℤ :=
  let f := x.floor
  let r := x - (f : ℚ)
  if r < 1/2 then f
  else if 1/2 < r then f + 1
  else if f % 2 = 0 then f else f + 1

/-- Round to 2 decimal places, half to even; the model of `.round(2)`. -/
def round2 (x : ℚ) : ℚ := ((roundHalfEven (x * 100) : ℤ) : ℚ) / 100

/-- Duplicate removal on the `(year, country_code)` key keeping the last
occurrence, in stable order; the model of
`drop_duplicates(subset=['year', 'country_code'], keep='last')`. -/
def dedupYearCountryKeepLast : List Row → List Row
  | [] => []
  | r :: rest =>
      if rest.any (fun r2 => r2.year == r.year && r2.country_code == r.country_code) then
        dedupYearCountryKeepLast rest
      else r :: dedupYearCountryKeepLast rest

/-- The required-columns step of `clean_gini_data`: any of `year`, `value`,
`country_code` not present is added (all cells missing, which in this
fixed-schema row model only extends the column list). -/
def addRequiredCols (df : DataFrame) : DataFrame :=
  ⟨df.cols ++ (["year", "value", "country_code"].filter
      (fun c => !(df.cols.contains c))), df.rows⟩

/-- Embedding of `clean_gini_data` from `utils/data_models.py`: empty input is
returned as is; otherwise (on a copy) the required columns are ensured, rows
failing `validate_year` or `validate_gini_value` are dropped, duplicates on
`(year, country_code)` collapse to the last occurrence, rows are sorted by
year, values are percentage-normalized then rounded to 2 decimals, and
country codes are upper-cased. -/
def clean_gini_data (df : DataFrame) : DataFrame :=
  if df.rows = [] then df
  else
    let withCols := addRequiredCols df
    let rows1 := withCols.rows.filter (fun r => validate_year r.year)
    let rows2 := rows1.filter (fun r => validate_gini_value r.value)
    let rows3 := dedupYearCountryKeepLast rows2
    let rows4 := sortRowsByYear rows3
    let rows5 := rows4.map (fun r => { r with value := r.value.map normalize100 })
    let rows6 := rows5.map (fun r => { r with value := r.value.map round2 })
    let rows7 := rows6.map (fun r => { r with country_code := r.country_code.map String.toUpper })
    ⟨withCols.cols, rows7⟩

/-- Python `str(x)` on a possibly missing string cell: NaN prints as the
literal string `nan` (as pandas `astype(str)` and `str()` produce). -/
def pystr (x : Option String) : String :=
  match x with
  | some s => s
  | none => "nan"

/-- Keep the first component when present, else the second; the cellwise model
of forward fill. -/
def pick {α : Type} (x y : Option α) : Option α :=
  match x with
  | some v => some v
  | none => y

/-- Forward-fill one row from the carry of previous valid cells. -/
def fillRowFrom (carry r : Row) : Row :=
  ⟨pick r.year carry.year, pick r.value carry.value,
   pick r.country_code carry.country_code, pick r.country_name carry.country_name,
   pick r.source carry.source, pick r.gini carry.gini,
   pick r.top_10_share carry.top_10_share, pick r.bottom_50_share carry.bottom_50_share,
   pick r.top_1_share carry.top_1_share, pick ( Row.palma_ratio r) ( Row.palma_ratio carry)⟩

/-- Forward fill over a row list; the model of `fillna(method='ffill')`. -/
def ffillRows : Row → List Row → List Row
  | _, [] => []
  | carry, r :: rest =>
      let filled := fillRowFrom carry r
      filled :: ffillRows filled rest

/-- Missing-cell test of a row in a named column of the canonical schema. -/
def Row.isMissingIn (r : Row) (c : String) : Bool :=
  if c = "year" then r.year.isNone
  else if c = "value" then r.value.isNone
  else if c = "country_code" then r.country_code.isNone
  else if c = "country_name" then r.country_name.isNone
  else if c = "source" then r.source.isNone
  else if c = "gini" then r.gini.isNone
  else if c = "top_10_share" then r.top_10_share.isNone
  else if c = "bottom_50_share" then r.bottom_50_share.isNone
  else if c = "top_1_share" then r.top_1_share.isNone
  else if c = "palma_ratio" then ( Row.palma_ratio r).isNone
  else false

/-- The model of `dropna()`: drop every row with a missing cell in any of the
present columns. -/
def dropna (df : DataFrame) : DataFrame :=
  ⟨df.cols, df.rows.filter (fun r => !(df.cols.any (fun c => Row.isMissingIn r c)))⟩

/-- Last valid value-cell strictly before index `i`. -/
def prevValid (vals : List (Option ℚ)) (i : ℕ) : Option (ℕ × ℚ) :=
  (List.range i).reverse.findSome? (fun j => (vals.getD j none).map (fun v => (j, v)))

/-- First valid value-cell strictly after index `i`. -/
def nextValid (vals : List (Option ℚ)) (i : ℕ) : Option (ℕ × ℚ) :=
  (List.range vals.length).findSome? (fun j =>
    if i < j then (vals.getD j none).map (fun v => (j, v)) else none)

/-- Linear interpolation of the `value` column; the model of pandas
`interpolate(method='linear')`: interior gaps are linearly interpolated from
the surrounding valid cells, trailing gaps are filled with the last valid
value, leading gaps stay missing. -/
def interpValue (vals : List (Option ℚ)) : List (Option ℚ) :=
  (List.range vals.length).map (fun i =>
    match vals.getD i none with
    | some v => some v
    | none =>
        match prevValid vals i, nextValid vals i with
        | some jv, some kv =>
            some (jv.2 + ((i - jv.1 : ℕ) : ℚ) * (kv.2 - jv.2) / ((kv.1 - jv.1 : ℕ) : ℚ))
        | some jv, none => some jv.2
        | none, _ => none)

/-- Replace the `value` column of a table with the given cells, rowwise. -/
def setValueCol (df : DataFrame) (vals : List (Option ℚ)) : DataFrame :=
  ⟨df.cols, (df.rows.zip vals).map (fun rv => { rv.1 with value := rv.2 })⟩

/-- Embedding of `handle_missing_values` from `utils/data_models.py`: empty
input is returned as is; otherwise (on a copy) the `drop` strategy removes
rows with any missing cell, `interpolate` linearly interpolates the `value`
column then drops remaining missing rows, `forward_fill` propagates last
valid cells forward then drops remaining missing rows, and an unknown method
raises `ValueError`. -/
def handle_missing_values (df : DataFrame) (method : String) : Except String DataFrame :=
  if df.rows = [] then .ok df
  else
    if method = "drop" then .ok (dropna df)
    else if method = "interpolate" then
      let df2 := if df.cols.contains "value" then
          setValueCol df (interpValue (df.rows.map (fun r => r.value)))
        else df
      .ok (dropna df2)
    else if method = "forward_fill" then
      .ok (dropna ⟨df.cols, ffillRows emptyRow df.rows⟩)
    else .error ("Unknown method for handling missing values: " ++ method)

/-- Read a string cell of the canonical schema by column name. -/
def Row.getStr (r : Row) (c : String) : Option String :=
  if c = "country_code" then r.country_code
  else if c = "country_name" then r.country_name
  else if c = "source" then r.source
  else none

/-- Write a string cell of the canonical schema by column name (cells of
columns outside the schema are not carried in this model). -/
def Row.setStr (r : Row) (c : String) (v : Option String) : Row :=
  if c = "country_code" then { r with country_code := v }
  else if c = "country_name" then { r with country_name := v }
  else if c = "source" then { r with source := v }
  else r

/-- The country alias table of `normalize_country_codes` in
`src/data_cleaning.py`. -/
def country_mapping : List (String × String) :=
  [("US", "USA"), ("United States", "USA"), ("USA", "USA"),
   ("Germany", "DEU"), ("DE", "DEU"), ("DEU", "DEU"),
   ("France", "FRA"), ("FR", "FRA"), ("FRA", "FRA"),
   ("United Kingdom", "GBR"), ("UK", "GBR"), ("GB", "GBR"), ("GBR", "GBR"),
   ("Italy", "ITA"), ("IT", "ITA"), ("ITA", "ITA"),
   ("Spain", "ESP"), ("ES", "ESP"), ("ESP", "ESP"),
   ("Canada", "CAN"), ("CA", "CAN"), ("CAN", "CAN"),
   ("Australia", "AUS"), ("AU", "AUS"), ("AUS", "AUS"),
   ("Japan", "JPN"), ("JP", "JPN"), ("JPN", "JPN"),
   ("Brazil", "BRA"), ("BR", "BRA"), ("BRA", "BRA"),
   ("India", "IND"), ("IN", "IND"), ("IND", "IND"),
   ("China", "CHN"), ("CN", "CHN"), ("CHN", "CHN"),
   ("Russia", "RUS"), ("RU", "RUS"), ("RUS", "RUS"),
   ("Mexico", "MEX"), ("MX", "MEX"), ("MEX", "MEX"),
   ("South Korea", "KOR"), ("KR", "KOR"), ("KOR", "KOR"),
   ("Netherlands", "NLD"), ("NL", "NLD"), ("NLD", "NLD"),
   ("Sweden", "SWE"), ("SE", "SWE"), ("SWE", "SWE"),
   ("Norway", "NOR"), ("NO", "NOR"), ("NOR", "NOR"),
   ("Denmark", "DNK"), ("DK", "DNK"), ("DNK", "DNK"),
   ("Finland", "FIN"), ("FI", "FIN"), ("FIN", "FIN")]

/-- The `COUNTRY_CODES` table of `src/utils.py`. -/
def COUNTRY_CODES : List (String × String) :=
  [("USA", "United States"), ("DEU", "Germany"), ("FRA", "France"),
   ("GBR", "United Kingdom"), ("ITA", "Italy"), ("ESP", "Spain"),
   ("CAN", "Canada"), ("AUS", "Australia"), ("JPN", "Japan"),
   ("BRA", "Brazil"), ("IND", "India"), ("CHN", "China"),
   ("RUS", "Russia"), ("MEX", "Mexico"), ("KOR", "South Korea"),
   ("NLD", "Netherlands"), ("SWE", "Sweden"), ("NOR", "Norway"),
   ("DNK", "Denmark"), ("FIN", "Finland")]

/-- Embedding of `get_country_name` from `src/utils.py`. -/
def get_country_name (code : String) : String :=
  (COUNTRY_CODES.lookup code.toUpper).getD code

/-- The alias-mapping pass of `normalize_country_codes`: each cell is
stringified, stripped, and mapped through the alias table (unknown codes pass
through unchanged). -/
def applyCountryMapping (df : DataFrame) (country_column : String) : DataFrame :=
  ⟨df.cols, df.rows.map (fun r =>
    Row.setStr r country_column
      (some ((country_mapping.lookup (pystr (Row.getStr r country_column)).trim).getD
        (pystr (Row.getStr r country_column)).trim)))⟩

/-- Embedding of `normalize_country_codes` from `src/data_cleaning.py`: a
missing country column leaves the table untouched; otherwise (on a copy) the
alias mapping is applied and, when absent, a `country_name` column derived
through `get_country_name` is added. -/
def normalize_country_codes (df : DataFrame) (country_column : String) : DataFrame :=
  if !(df.cols.contains country_column) then df
  else
    let df1 := applyCountryMapping df country_column
    if df1.cols.contains "country_name" then df1
    else
      ⟨df1.cols ++ ["country_name"],
       df1.rows.map (fun r =>
         { r with country_name := some (get_country_name (pystr (Row.getStr r country_column))) })⟩

/-- The `handle_missing_values` of `src/data_cleaning.py` (the no-argument
variant used inside `clean_inequality_data`): it logs missing numeric cells
and mode-fills categorical columns other than `country_code`, `country_name`
and `source`; in this canonical-schema model the only categorical columns are
those identifying ones, so the data transform is the identity (the source
still copies the frame, which the heap wrapper models). -/
def handle_missing_values_dc (df : DataFrame) : DataFrame := df

/-- The column alias table of `standardize_column_names`. -/
def column_mapping : List (String × String) :=
  [("Country", "country_code"), ("Country Code", "country_code"),
   ("CountryName", "country_name"), ("Country Name", "country_name"),
   ("Year", "year"),
   ("Gini", "gini"), ("Gini Coefficient", "gini"), ("GiniIndex", "gini"),
   ("Top10Share", "top_10_share"), ("Top 10 Share", "top_10_share"), ("Top10", "top_10_share"),
   ("Bottom50Share", "bottom_50_share"), ("Bottom 50 Share", "bottom_50_share"),
   ("Bottom50", "bottom_50_share"),
   ("Top1Share", "top_1_share"), ("Top 1 Share", "top_1_share"), ("Top1", "top_1_share"),
   ("PalmaRatio", "palma_ratio"), ("Palma Ratio", "palma_ratio"),
   ("Source", "source"), ("DataSource", "source")]

/-- Embedding of `standardize_column_names` from `src/data_cleaning.py`:
rename through the alias table, then lower-case and underscore every column
name (data cells of non-canonical columns are not carried in this model). -/
def standardize_column_names (df : DataFrame) : DataFrame :=
  ⟨(df.cols.map (fun c => (column_mapping.lookup c).getD c)).map
      (fun c => c.toLower.replace " " "_"), df.rows⟩

/-- Embedding of `validate_data_types` from `src/data_cleaning.py`: in this
model the year and metric cells are already numeric (`to_numeric` is the
identity on them), and the identifying columns are cast to `str`, which turns
missing cells into the literal string `nan` as pandas `astype(str)` does. -/
def validate_data_types (df : DataFrame) : DataFrame :=
  let rows1 := if df.cols.contains "country_code" then
      df.rows.map (fun r => { r with country_code := some (pystr r.country_code) })
    else df.rows
  let rows2 := if df.cols.contains "country_name" then
      rows1.map (fun r => { r with country_name := some (pystr r.country_name) })
    else rows1
  let rows3 := if df.cols.contains "source" then
      rows2.map (fun r => { r with source := some (pystr r.source) })
    else rows2
  ⟨df.cols, rows3⟩

/-- Exact-duplicate removal keeping the first occurrence; the model of
`drop_duplicates()`. -/
def dedupKeepFirstAux : List Row → List Row → List Row
  | _, [] => []
  | seen, a :: rest =>
      if a ∈ seen then dedupKeepFirstAux seen rest
      else a :: dedupKeepFirstAux (a :: seen) rest

/-- The model of `df.drop_duplicates()`. -/
def drop_duplicates (df : DataFrame) : DataFrame :=
  ⟨df.cols, dedupKeepFirstAux [] df.rows⟩

/-- Lexicographic `(country_code, year)` comparison, missing values last. -/
def codeYearLe (a b : Row) : Bool :=
  match a.country_code, b.country_code with
  | some x, some y => if x = y then yearLe a b else decide (x < y)
  | some _, none => true
  | none, some _ => false
  | none, none => yearLe a b

/-- The model of `df.sort_values(['country_code', 'year'])`. -/
def sortByCountryYear (df : DataFrame) : DataFrame :=
  ⟨df.cols, df.rows.insertionSort (fun a b => codeYearLe a b = true)⟩

/-- Comparison of a possibly missing cell with a constant: missing compares
false, as NaN does in pandas boolean masks. -/
def optLt (x : Option ℚ) (c : ℚ) : Bool :=
  match x with
  | none => false
  | some v => decide (v < c)

/-- Missing-aware `>` against a constant. -/
def optGt (x : Option ℚ) (c : ℚ) : Bool :=
  match x with
  | none => false
  | some v => decide (c < v)

/-- Missing-aware `≥` against a constant. -/
def optGe (x : Option ℚ) (c : ℚ) : Bool :=
  match x with
  | none => false
  | some v => decide (c ≤ v)

/-- Missing-aware `≤` against a constant. -/
def optLe (x : Option ℚ) (c : ℚ) : Bool :=
  match x with
  | none => false
  | some v => decide (v ≤ c)

/-- The invalid mask of a `[0, 1]`-ranged column: value below 0 or above 1
(false on missing cells). -/
def badRange (x : Option ℚ) : Bool := optLt x 0 || optGt x 1

/-- The keep mask of a `[0, 1]`-ranged column: value between 0 and 1 (false on
missing cells, which is what silently drops NaN rows when the pass runs). -/
def keepRange (x : Option ℚ) : Bool := optGe x 0 && optLe x 1

/-- The invalid mask of the Palma column: negative value. -/
def badPalma (x : Option ℚ) : Bool := optLt x 0

/-- The keep mask of the Palma column: non-negative value. -/
def keepPalma (x : Option ℚ) : Bool := optGe x 0

/-- One range-validation pass of `validate_inequality_metrics`: when some row
matches the invalid mask, the frame is re-filtered with the keep mask —
which, because NaN comparisons are false, also drops rows whose cell is
missing; when no row matches, the frame is untouched. -/
def validatePass (bad keep : Row → Bool) (rows : List Row) : List Row :=
  if rows.filter bad ≠ [] then rows.filter keep else rows

/-- Embedding of `validate_inequality_metrics` from `src/data_cleaning.py`:
the gini pass, the three share-column passes, and the palma pass, each
applied only when the column is present. -/
def validate_inequality_metrics (df : DataFrame) : DataFrame :=
  let rows1 := if df.cols.contains "gini" then
      validatePass (fun r => badRange r.gini) (fun r => keepRange r.gini) df.rows
    else df.rows
  let rows2 := if df.cols.contains "top_10_share" then
      validatePass (fun r => badRange r.top_10_share) (fun r => keepRange r.top_10_share) rows1
    else rows1
  let rows3 := if df.cols.contains "bottom_50_share" then
      validatePass (fun r => badRange r.bottom_50_share)
        (fun r => keepRange r.bottom_50_share) rows2
    else rows2
  let rows4 := if df.cols.contains "top_1_share" then
      validatePass (fun r => badRange r.top_1_share) (fun r => keepRange r.top_1_share) rows3
    else rows3
  let rows5 := if df.cols.contains "palma_ratio" then
      validatePass (fun r => badPalma ( Row.palma_ratio r))
        (fun r => keepPalma ( Row.palma_ratio r)) rows4
    else rows4
  ⟨df.cols, rows5⟩

/-- A row with an out-of-range metric value in a present column: gini or a
share outside `[0, 1]`, or a negative Palma ratio. -/
def rowOutOfRange (cols : List String) (r : Row) : Bool :=
  (cols.contains "gini" && badRange r.gini)
  || (cols.contains "top_10_share" && badRange r.top_10_share)
  || (cols.contains "bottom_50_share" && badRange r.bottom_50_share)
  || (cols.contains "top_1_share" && badRange r.top_1_share)
  || (cols.contains "palma_ratio" && badPalma ( Row.palma_ratio r))

/-!
Object-identity layer for the frame-effect claim.  A Python heap is a list of
DataFrame objects addressed by position; `df.copy()` allocates a fresh cell
and every in-place mutation of the source targets that fresh cell, so each
heap function below either returns its argument reference unchanged (the
early-return branches of the source) or allocates.  The pure transforms above
carry the data content.
-/

/-- Read a heap cell. -/
def heapGet (h : List DataFrame) (r : ℕ) : DataFrame := h.getD r ⟨[], []⟩

/-- Allocate a fresh heap cell, returning the new heap and the new address. -/
def heapAlloc (h : List DataFrame) (df : DataFrame) : List DataFrame × ℕ :=
  (h ++ [df], h.length)

/-- Heap semantics of `normalize_country_codes`: the missing-column early
return hands back the argument object itself; otherwise the copied-and-
transformed table is a fresh object. -/
def normalize_country_codes_h (h : List DataFrame) (r : ℕ) (country_column : String) :
    List DataFrame × ℕ :=
  if !((heapGet h r).cols.contains country_column) then (h, r)
  else heapAlloc h (normalize_country_codes (heapGet h r) country_column)

/-- Heap semantics of `clean_gini_data`: the empty early return hands back
the argument object itself; otherwise the cleaned table is a fresh object. -/
def clean_gini_data_h (h : List DataFrame) (r : ℕ) : List DataFrame × ℕ :=
  if (heapGet h r).rows = [] then (h, r)
  else heapAlloc h (clean_gini_data (heapGet h r))

/-- Heap semantics of the `utils/data_models.py` `handle_missing_values`: the
empty early return hands back the argument object; an unknown method copies
and then raises; otherwise the handled table is a fresh object. -/
def handle_missing_values_h (h : List DataFrame) (r : ℕ) (method : String) :
    List DataFrame × Except String ℕ :=
  if (heapGet h r).rows = [] then (h, .ok r)
  else
    match handle_missing_values (heapGet h r) method with
    | .ok df2 =>
        let a := heapAlloc h df2
        (a.1, .ok a.2)
    | .error e =>
        let a := heapAlloc h (heapGet h r)
        (a.1, .error e)

/-- Heap semantics of the `src/data_cleaning.py` `handle_missing_values`
helper: it always copies. -/
def handle_missing_values_dc_h (h : List DataFrame) (r : ℕ) : List DataFrame × ℕ :=
  heapAlloc h (handle_missing_values_dc (heapGet h r))

/-- Heap semantics of `standardize_column_names`: it always copies. -/
def standardize_column_names_h (h : List DataFrame) (r : ℕ) : List DataFrame × ℕ :=
  heapAlloc h (standardize_column_names (heapGet h r))

/-- Heap semantics of `validate_data_types`: it always copies. -/
def validate_data_types_h (h : List DataFrame) (r : ℕ) : List DataFrame × ℕ :=
  heapAlloc h (validate_data_types (heapGet h r))

/-- Heap semantics of `clean_inequality_data` from `src/data_cleaning.py`:
the empty early return hands back the argument object; otherwise the frame is
copied and threaded through the normalization, missing-value, column, type,
duplicate and sorting passes, each of which allocates fresh objects only. -/
def clean_inequality_data_h (h : List DataFrame) (r : ℕ) : List DataFrame × ℕ :=
  if (heapGet h r).rows = [] then (h, r)
  else
    let c := heapAlloc h (heapGet h r)
    let s1 := if (heapGet c.1 c.2).cols.contains "country_code" then
        normalize_country_codes_h c.1 c.2 "country_code"
      else c
    let s2 := handle_missing_values_dc_h s1.1 s1.2
    let s3 := standardize_column_names_h s2.1 s2.2
    let s4 := validate_data_types_h s3.1 s3.2
    let s5 := heapAlloc s4.1 (drop_duplicates (heapGet s4.1 s4.2))
    if (heapGet s5.1 s5.2).cols.contains "country_code"
        && (heapGet s5.1 s5.2).cols.contains "year" then
      heapAlloc s5.1 (sortByCountryYear (heapGet s5.1 s5.2))
    else s5

/-! Facts about the range-validation passes (claim C8). -/

theorem mem_validatePass {bad keep : Row → Bool} {rows : List Row} {r : Row}
    (h : r ∈ validatePass bad keep rows) : r ∈ rows := by
  unfold validatePass at h
  split_ifs at h
  · exact List.mem_of_mem_filter h
  · exact h

theorem validatePass_kills {bad keep : Row → Bool} {rows : List Row} {r : Row}
    (hb : bad r = true) (hbk : ∀ x : Row, bad x = true → keep x = false)
    (hr : r ∈ rows) : r ∉ validatePass bad keep rows := by
  unfold validatePass
  rw [if_pos (List.ne_nil_of_mem (List.mem_filter.mpr ⟨hr, hb⟩))]
  intro hmem
  have hk := List.of_mem_filter hmem
  rw [hbk r hb] at hk
  exact Bool.false_ne_true hk

theorem validatePass_id {bad keep : Row → Bool} {rows : List Row}
    (h : ∀ r ∈ rows, bad r = false) : validatePass bad keep rows = rows := by
  unfold validatePass
  rw [if_neg]
  intro hne
  apply hne
  apply List.filter_eq_nil.mpr
  intro a ha
  rw [h a ha]
  exact Bool.false_ne_true

theorem mem_validateStep {P : Prop} [Decidable P] {bad keep : Row → Bool}
    {rows : List Row} {r : Row}
    (h : r ∈ (if P then validatePass bad keep rows else rows)) : r ∈ rows := by
  split_ifs at h
  · exact mem_validatePass h
  · exact h

theorem not_mem_validateStep {P : Prop} [Decidable P] {bad keep : Row → Bool}
    {rows : List Row} {r : Row} (hP : P) (hb : bad r = true)
    (hbk : ∀ x : Row, bad x = true → keep x = false) :
    r ∉ (if P then validatePass bad keep rows else rows) := by
  rw [if_pos hP]
  by_cases hr : r ∈ rows
  · exact validatePass_kills hb hbk hr
  · intro hm
    exact hr (mem_validatePass hm)

theorem badRange_keepRange (x : Option ℚ) (h : badRange x = true) : keepRange x = false := by
  cases hx : x with
  | none => rw [hx] at h; simp [badRange, optLt, optGt] at h
  | some v =>
      rw [hx] at h
      simp [badRange, optLt, optGt] at h
      simp [keepRange, optGe, optLe]
      intro h0
      rcases h with h | h
      · linarith
      · linarith

theorem badPalma_keepPalma (x : Option ℚ) (h : badPalma x = true) : keepPalma x = false := by
  cases hx : x with
  | none => rw [hx] at h; simp [badPalma, optLt] at h
  | some v =>
      rw [hx] at h
      simp [badPalma, optLt] at h
      simp [keepPalma, optGe]
      linarith

/-- C8 counterexample: a table with one out-of-range gini row (1.5) and one
missing-gini row.  Because the out-of-range row makes the invalid mask
non-empty, the keep filter runs and the NaN comparison drops the missing row
as well — both rows are removed, refuting the claim that rows with missing
metric values are always retained. -/
theorem claim_C8_counterexample :
    validate_inequality_metrics
        ⟨["gini"], [{ emptyRow with gini := some (3/2) }, emptyRow]⟩
      = ⟨["gini"], []⟩
  ∧ emptyRow.gini = none := by
  with_unfolding_all decide

/-- Helper: a conjunction of Booleans that is false while its first conjunct
is true has a false second conjunct. -/
theorem and_false_of_true {c b : Bool} (h : (c && b) = false) (hc : c = true) :
    b = false := by
  rw [hc] at h
  simpa using h

theorem or_eq_false {a b : Bool} (h : (a || b) = false) : a = false ∧ b = false := by
  cases a <;> cases b <;> simp_all

theorem validateStep_id {P : Prop} [inst : Decidable P] {bad keep : Row → Bool}
    {rows : List Row} (h : P → ∀ r ∈ rows, bad r = false) :
    (if P then validatePass bad keep rows else rows) = rows := by
  split_ifs with hP
  · exact validatePass_id (h hP)
  · rfl

/-- C8 amended: the range-validation pass always drops every row whose gini or
share value lies outside `[0, 1]` or whose Palma ratio is negative; and when
the table contains no out-of-range value at all, the pass drops nothing — in
particular rows with missing metric values are then retained.  But a
missing-value row is also dropped whenever some other row of the same column
is out of range, because the keep filter evaluates NaN comparisons to
false. -/
theorem claim_C8_amended :
    (∀ (df : DataFrame) (r : Row), r ∈ df.rows → rowOutOfRange df.cols r = true →
        r ∉ (validate_inequality_metrics df).rows)
  ∧ (∀ df : DataFrame, (∀ r ∈ df.rows, rowOutOfRange df.cols r = false) →
        validate_inequality_metrics df = df) := by
  constructor
  · intro df r hr hbad
    simp only [validate_inequality_metrics]
    simp only [rowOutOfRange, Bool.or_eq_true, Bool.and_eq_true] at hbad
    intro hmem
    rcases hbad with h1234 | ⟨hc, hb⟩
    · rcases h1234 with h123 | ⟨hc, hb⟩
      · rcases h123 with h12 | ⟨hc, hb⟩
        · rcases h12 with ⟨hc, hb⟩ | ⟨hc, hb⟩
          · exact not_mem_validateStep hc hb (fun x hx => badRange_keepRange x.gini hx)
              (mem_validateStep (mem_validateStep (mem_validateStep (mem_validateStep hmem))))
          · exact not_mem_validateStep hc hb
              (fun x hx => badRange_keepRange x.top_10_share hx)
              (mem_validateStep (mem_validateStep (mem_validateStep hmem)))
        · exact not_mem_validateStep hc hb
            (fun x hx => badRange_keepRange x.bottom_50_share hx)
            (mem_validateStep (mem_validateStep hmem))
      · exact not_mem_validateStep hc hb (fun x hx => badRange_keepRange x.top_1_share hx)
          (mem_validateStep hmem)
    · exact not_mem_validateStep hc hb
        (fun x hx => badPalma_keepPalma ( Row.palma_ratio x) hx) hmem
  · intro df hall
    have split5 : ∀ r ∈ df.rows,
        (df.cols.contains "gini" && badRange r.gini) = false
      ∧ (df.cols.contains "top_10_share" && badRange r.top_10_share) = false
      ∧ (df.cols.contains "bottom_50_share" && badRange r.bottom_50_share) = false
      ∧ (df.cols.contains "top_1_share" && badRange r.top_1_share) = false
      ∧ (df.cols.contains "palma_ratio" && badPalma ( Row.palma_ratio r)) = false := by
      intro r hr
      have h0 := hall r hr
      simp only [rowOutOfRange] at h0
      obtain ⟨h0, h5⟩ := or_eq_false h0
      obtain ⟨h0, h4⟩ := or_eq_false h0
      obtain ⟨h0, h3⟩ := or_eq_false h0
      obtain ⟨h1, h2⟩ := or_eq_false h0
      exact ⟨h1, h2, h3, h4, h5⟩
    simp only [validate_inequality_metrics]
    rw [validateStep_id (fun hc r hr => and_false_of_true (split5 r hr).1 hc)]
    rw [validateStep_id (fun hc r hr => and_false_of_true (split5 r hr).2.1 hc)]
    rw [validateStep_id (fun hc r hr => and_false_of_true (split5 r hr).2.2.1 hc)]
    rw [validateStep_id (fun hc r hr => and_false_of_true (split5 r hr).2.2.2.1 hc)]
    rw [validateStep_id (fun hc r hr => and_false_of_true (split5 r hr).2.2.2.2 hc)]

/-- Witness for C8 amended: the single out-of-range row `gini = 1.5` is
dropped, and a table whose only row has a missing gini cell passes range
validation unchanged. -/
theorem claim_C8_witness :
    { emptyRow with gini := some (3/2) } ∉
      (validate_inequality_metrics
        ⟨["gini"], [{ emptyRow with gini := some (3/2) }]⟩).rows
  ∧ validate_inequality_metrics ⟨["gini"], [emptyRow]⟩ = ⟨["gini"], [emptyRow]⟩ := by
  refine ⟨claim_C8_amended.1 ⟨["gini"], [{ emptyRow with gini := some (3/2) }]⟩
      { emptyRow with gini := some (3/2) } (by with_unfolding_all decide)
      (by with_unfolding_all decide),
    claim_C8_amended.2 ⟨["gini"], [emptyRow]⟩ (by with_unfolding_all decide)⟩


/-! Facts about the API adapter and the Gini-cleaning pass (claim C7). -/

instance : IsTotal Row (fun a b => yearLe a b = true) := by
  constructor
  intro a b
  cases ha : a.year <;> cases hb : b.year <;> simp [yearLe, ha, hb]
  exact le_total _ _

instance : IsTrans Row (fun a b => yearLe a b = true) := by
  constructor
  intro a b c hab hbc
  cases ha : a.year <;> cases hb : b.year <;> cases hc : c.year <;>
    simp_all [yearLe] <;> exact le_trans hab hbc

theorem convertEntry_eq_some {cc : String} {entry : ApiEntry} {r : Row} :
    convertEntry cc entry = some r ↔
      ∃ d v, entry.date = some d ∧ entry.value = some v ∧
        validate_year (some d) = true ∧ validate_gini_value (some v) = true ∧
        r = { emptyRow with
              year := some ((intTrunc d : ℤ) : ℚ),
              value := some (if v ≤ 1 then v * 100 else v),
              country_code := some cc.toUpper } := by
  unfold convertEntry
  rcases hd : entry.date with _ | d <;> rcases hv : entry.value with _ | v <;>
    simp [hd, hv]
  constructor
  · rintro ⟨⟨h1, h2⟩, h3⟩
    exact ⟨h1, h2, h3.symm⟩
  · rintro ⟨h1, h2, h3⟩
    exact ⟨⟨h1, h2⟩, h3.symm⟩

/-- The year-sorting produced inside `clean_gini_data` survives the three
value and country-code maps, which leave the year cell untouched. -/
theorem clean_sorted_core (rows3 : List Row) :
    List.Sorted (fun a b => yearLe a b = true)
      ((((sortRowsByYear rows3).map
          (fun r => { r with value := r.value.map normalize100 })).map
            (fun r => { r with value := r.value.map round2 })).map
        (fun r => { r with country_code := r.country_code.map String.toUpper })) := by
  have h4 : List.Pairwise (fun a b : Row => yearLe a b = true) (sortRowsByYear rows3) :=
    List.sorted_insertionSort _ _
  have h5 : List.Pairwise (fun a b : Row => yearLe a b = true)
      ((sortRowsByYear rows3).map (fun r => { r with value := r.value.map normalize100 })) :=
    List.Pairwise.map _ (fun a b hab => hab) h4
  have h6 : List.Pairwise (fun a b : Row => yearLe a b = true)
      (((sortRowsByYear rows3).map
          (fun r => { r with value := r.value.map normalize100 })).map
        (fun r => { r with value := r.value.map round2 })) :=
    List.Pairwise.map _ (fun a b hab => hab) h5
  exact List.Pairwise.map _ (fun a b hab => hab) h6

/-- C7: the adapter keeps exactly the entries with both fields present that
pass the year-range and value-plausibility validations, scaling surviving
values at most 1 by 100, and returns rows sorted by year ascending; the
cleaning pass rounds every value to 2 decimals (every output value cell is an
integer number of hundredths) and keeps rows sorted by year; and the
composed pipeline maps a raw 0.355 to the cleaned 35.5 while an
already-scaled 36.0 stays 36.0 (the percentage normalization is idempotent on
already-scaled values). -/
theorem claim_C7 :
    (∀ (api_response : List ApiEntry) (cc : String) (r : Row),
        r ∈ (convert_api_response_to_dataframe api_response cc).rows ↔
          ∃ entry ∈ api_response, ∃ d v,
            entry.date = some d ∧ entry.value = some v ∧
            validate_year (some d) = true ∧ validate_gini_value (some v) = true ∧
            r = { emptyRow with
                  year := some ((intTrunc d : ℤ) : ℚ),
                  value := some (if v ≤ 1 then v * 100 else v),
                  country_code := some cc.toUpper })
  ∧ (∀ (api_response : List ApiEntry) (cc : String),
        List.Sorted (fun a b => yearLe a b = true)
          (convert_api_response_to_dataframe api_response cc).rows)
  ∧ (∀ (df : DataFrame) (r : Row) (q : ℚ), r ∈ (clean_gini_data df).rows →
        r.value = some q → ∃ k : ℤ, q = (k : ℚ) / 100)
  ∧ (∀ df : DataFrame,
        List.Sorted (fun a b => yearLe a b = true) (clean_gini_data df).rows)
  ∧ clean_gini_data (convert_api_response_to_dataframe
        [⟨some 2020, some (355/1000)⟩] "usa")
      = ⟨["year", "value", "country_code"],
         [⟨some 2020, some (71/2), some "USA", none, none, none, none, none, none, none⟩]⟩
  ∧ clean_gini_data (convert_api_response_to_dataframe [⟨some 2020, some 36⟩] "usa")
      = ⟨["year", "value", "country_code"],
         [⟨some 2020, some 36, some "USA", none, none, none, none, none, none, none⟩]⟩
  ∧ normalize100 (71/2) = 71/2 ∧ normalize100 36 = 36 := by
  refine ⟨?_, ?_, ?_, ?_, by with_unfolding_all decide, by with_unfolding_all decide,
    by with_unfolding_all decide, by with_unfolding_all decide⟩
  · intro api_response cc r
    simp only [convert_api_response_to_dataframe]
    split_ifs with h1 h2
    · simp [h1]
    · rw [h2]
      constructor
      · intro hmem
        exact absurd hmem (List.not_mem_nil r)
      · rintro ⟨entry, hent, d, v, hd, hv, hvy, hvg, hr⟩
        exfalso
        have hm : r ∈ api_response.filterMap (convertEntry cc) :=
          List.mem_filterMap.mpr ⟨entry, hent,
            convertEntry_eq_some.mpr ⟨d, v, hd, hv, hvy, hvg, hr⟩⟩
        rw [h2] at hm
        exact List.not_mem_nil r hm
    · simp only [sortRowsByYear, List.mem_insertionSort, List.mem_filterMap,
        convertEntry_eq_some]
  · intro api_response cc
    simp only [convert_api_response_to_dataframe]
    split_ifs with h1 h2
    · exact List.sorted_nil
    · rw [h2]
      exact List.sorted_nil
    · exact List.sorted_insertionSort _ _
  · intro df r q hmem hval
    simp only [clean_gini_data] at hmem
    split_ifs at hmem with h1
    · rw [h1] at hmem
      exact absurd hmem (List.not_mem_nil r)
    · obtain ⟨r6, h6, rfl⟩ := List.mem_map.mp hmem
      obtain ⟨r5, h5, rfl⟩ := List.mem_map.mp h6
      have hv5 : (r5.value.map round2) = some q := hval
      obtain ⟨x, hx, hxq⟩ := Option.map_eq_some'.mp hv5
      exact ⟨roundHalfEven (x * 100), hxq.symm⟩
  · intro df
    simp only [clean_gini_data]
    split_ifs with h1
    · rw [h1]
      exact List.sorted_nil
    · exact clean_sorted_core _

/-- Witness for C7: the raw entry `(2020, 0.355)` survives conversion as the
row `(2020, 35.5, USA)`, and the cleaned value `35.5` is an integer number of
hundredths. -/
theorem claim_C7_witness :
    (⟨some 2020, some (71/2), some "USA", none, none, none, none, none, none, none⟩ : Row)
      ∈ (convert_api_response_to_dataframe [⟨some 2020, some (355/1000)⟩] "usa").rows
  ∧ (∃ k : ℤ, (71/2 : ℚ) = (k : ℚ) / 100) := by
  constructor
  · exact (claim_C7.1 [⟨some 2020, some (355/1000)⟩] "usa" _).mpr
      ⟨⟨some 2020, some (355/1000)⟩, by with_unfolding_all decide, 2020, 355/1000,
        rfl, rfl, by with_unfolding_all decide, by with_unfolding_all decide,
        by with_unfolding_all decide⟩
  · exact claim_C7.2.2.1
      (convert_api_response_to_dataframe [⟨some 2020, some (355/1000)⟩] "usa")
      ⟨some 2020, some (71/2), some "USA", none, none, none, none, none, none, none⟩
      (71/2) (by with_unfolding_all decide) (by with_unfolding_all decide)

/-! Facts about the heap semantics of the cleaning functions (claim C10). -/

theorem heapGet_prefix (h t : List DataFrame) (r' : ℕ) (hr : r' < h.length) :
    heapGet (h ++ t) r' = heapGet h r' := by
  unfold heapGet
  rw [List.getD_eq_getElem?_getD, List.getD_eq_getElem?_getD, List.getElem?_append,
    if_pos hr]

theorem normalize_country_codes_h_extends (h : List DataFrame) (r : ℕ) (cc : String) :
    ∃ t, (normalize_country_codes_h h r cc).1 = h ++ t := by
  unfold normalize_country_codes_h
  split_ifs
  · exact ⟨[], (List.append_nil h).symm⟩
  · exact ⟨_, rfl⟩

theorem clean_gini_data_h_extends (h : List DataFrame) (r : ℕ) :
    ∃ t, (clean_gini_data_h h r).1 = h ++ t := by
  unfold clean_gini_data_h
  split_ifs
  · exact ⟨[], (List.append_nil h).symm⟩
  · exact ⟨_, rfl⟩

theorem handle_missing_values_h_extends (h : List DataFrame) (r : ℕ) (method : String) :
    ∃ t, (handle_missing_values_h h r method).1 = h ++ t := by
  unfold handle_missing_values_h
  split_ifs
  · exact ⟨[], (List.append_nil h).symm⟩
  · rcases handle_missing_values (heapGet h r) method with e | df2
    · exact ⟨_, rfl⟩
    · exact ⟨_, rfl⟩

theorem clean_inequality_data_h_extends (h : List DataFrame) (r : ℕ) :
    ∃ t, (clean_inequality_data_h h r).1 = h ++ t := by
  unfold clean_inequality_data_h
  simp only [heapAlloc, handle_missing_values_dc_h, standardize_column_names_h,
    validate_data_types_h]
  split_ifs with h1 h2 h3 h4
  · exact ⟨[], (List.append_nil h).symm⟩
  · obtain ⟨t1, ht1⟩ := normalize_country_codes_h_extends (h ++ [heapGet h r])
      h.length "country_code"
    rw [ht1]
    simp only [List.append_assoc]
    exact ⟨_, rfl⟩
  · obtain ⟨t1, ht1⟩ := normalize_country_codes_h_extends (h ++ [heapGet h r])
      h.length "country_code"
    rw [ht1]
    simp only [List.append_assoc]
    exact ⟨_, rfl⟩
  · simp only [List.append_assoc]
    exact ⟨_, rfl⟩
  · simp only [List.append_assoc]
    exact ⟨_, rfl⟩

/-- C10 counterexample: on an empty table, `clean_gini_data` returns its
argument object itself — the heap is unchanged and the returned reference is
the argument reference, so no new table is produced (the caller's argument is
still unmodified). -/
theorem claim_C10_counterexample :
    clean_gini_data_h [⟨["year", "value", "country_code"], []⟩] 0
      = ([⟨["year", "value", "country_code"], []⟩], 0) := by
  with_unfolding_all decide

/-- C10 amended: every cleaning-pipeline function leaves every pre-existing
heap object — in particular the caller's argument — unchanged: the heap
cells below the original heap length are untouched by the call.  A fresh
table is returned except in the early-return branches (missing country
column; empty input), where the argument object itself is returned
unmodified. -/
theorem claim_C10_amended :
    (∀ (h : List DataFrame) (r : ℕ) (cc : String) (r' : ℕ), r' < h.length →
        heapGet ((normalize_country_codes_h h r cc).1) r' = heapGet h r')
  ∧ (∀ (h : List DataFrame) (r r' : ℕ), r' < h.length →
        heapGet ((clean_inequality_data_h h r).1) r' = heapGet h r')
  ∧ (∀ (h : List DataFrame) (r r' : ℕ), r' < h.length →
        heapGet ((clean_gini_data_h h r).1) r' = heapGet h r')
  ∧ (∀ (h : List DataFrame) (r : ℕ) (method : String) (r' : ℕ), r' < h.length →
        heapGet ((handle_missing_values_h h r method).1) r' = heapGet h r') := by
  refine ⟨?_, ?_, ?_, ?_⟩
  · intro h r cc r' hr
    obtain ⟨t, ht⟩ := normalize_country_codes_h_extends h r cc
    rw [ht]
    exact heapGet_prefix h t r' hr
  · intro h r r' hr
    obtain ⟨t, ht⟩ := clean_inequality_data_h_extends h r
    rw [ht]
    exact heapGet_prefix h t r' hr
  · intro h r r' hr
    obtain ⟨t, ht⟩ := clean_gini_data_h_extends h r
    rw [ht]
    exact heapGet_prefix h t r' hr
  · intro h r method r' hr
    obtain ⟨t, ht⟩ := handle_missing_values_h_extends h r method
    rw [ht]
    exact heapGet_prefix h t r' hr

/-- Witness for C10 amended at a one-cell heap: each of the four functions
leaves the stored argument table intact. -/
theorem claim_C10_witness :
    heapGet ((normalize_country_codes_h [⟨["gini"], [emptyRow]⟩] 0 "country_code").1) 0
      = heapGet [⟨["gini"], [emptyRow]⟩] 0
  ∧ heapGet ((clean_inequality_data_h [⟨["gini"], [emptyRow]⟩] 0).1) 0
      = heapGet [⟨["gini"], [emptyRow]⟩] 0
  ∧ heapGet ((clean_gini_data_h [⟨["gini"], [emptyRow]⟩] 0).1) 0
      = heapGet [⟨["gini"], [emptyRow]⟩] 0
  ∧ heapGet ((handle_missing_values_h [⟨["gini"], [emptyRow]⟩] 0 "drop").1) 0
      = heapGet [⟨["gini"], [emptyRow]⟩] 0 :=
  ⟨claim_C10_amended.1 [⟨["gini"], [emptyRow]⟩] 0 "country_code" 0 (by decide),
   claim_C10_amended.2.1 [⟨["gini"], [emptyRow]⟩] 0 0 (by decide),
   claim_C10_amended.2.2.1 [⟨["gini"], [emptyRow]⟩] 0 0 (by decide),
   claim_C10_amended.2.2.2 [⟨["gini"], [emptyRow]⟩] 0 "drop" 0 (by decide)⟩
